import Mathlib

/-!
Verification of the training-loop core of a monocular depth-estimation
pipeline, shallowly embedded in Lean 4.

The embedding covers, from `src/trainers/base_trainer.py`,
`src/train.py`, `src/metrics/threshold_accuracy.py` and
`src/metrics/log10_average_error.py`:
the loss accumulator (a `torchmetrics.MeanMetric`), the depth metrics,
the EMA weight tracker, the per-epoch history table, the checkpoint
save/load pair, the periodic-checkpoint schedule, the progress-report
schedule, and the train/validate accumulator pipeline of one epoch.
Machine floats are idealised as `ℚ` (or `ℝ` where a logarithm is
taken); tensors are lists of scalars; stateful Python objects are
explicit state records.
-/

/-! ## torchmetrics.MeanMetric

`BaseTrainer.__init__` (base_trainer.py:24) creates
`self.loss_logger = tm.MeanMetric(full_state_update=False)`.
`MeanMetric.update(value, weight=1.0)` adds `(value * weight).sum()` to a
running total and the broadcast `weight.sum()` (= numel of `value` when
the default weight `1.0` is used) to a running weight;
`compute()` returns total / weight. -/

structure MeanState where
  total : ℚ
  weight : ℚ
deriving DecidableEq, Repr

/-- The freshly constructed / `reset()` state of a `MeanMetric`. -/
def MeanState.init : MeanState := ⟨0, 0⟩

/-- `MeanMetric.update(v)` on a scalar (0-dim) value `v` with the default
weight `1.0`: this is exactly how `BaseTrainer.train_one_batch`
(base_trainer.py:65) and `val_one_batch` (base_trainer.py:77) feed the
per-batch scalar loss into `self.loss_logger` — no batch-size weight is
passed. -/
def MeanState.updateScalar (s : MeanState) (v : ℚ) : MeanState :=
  ⟨s.total + v, s.weight + 1⟩

/-- `MeanMetric.update(vs)` on a tensor `vs` with the default weight `1.0`
broadcast over the tensor: total gains `vs.sum()`, weight gains `numel`. -/
def MeanState.updateTensor (s : MeanState) (vs : List ℚ) : MeanState :=
  ⟨s.total + vs.sum, s.weight + vs.length⟩

/-- `MeanMetric.compute()`. -/
def MeanState.compute (s : MeanState) : ℚ := s.total / s.weight

/-- The loss-logger state after a sequence of per-batch scalar losses has
been folded in by `train_one_batch` / `val_one_batch`. -/
def lossLoggerAfter (losses : List ℚ) : MeanState :=
  losses.foldl MeanState.updateScalar MeanState.init

/-- The size-weighted average the spec ascribes to the loss accumulator:
`(Σ nᵢ·vᵢ) / (Σ nᵢ)` over batches of size `nᵢ` with per-batch scalar
loss `vᵢ`.  Stated from the spec's words, for comparison with what the
code computes. -/
def sizeWeightedAverage (batches : List (ℕ × ℚ)) : ℚ :=
  (batches.map (fun b => (b.1 : ℚ) * b.2)).sum / ((batches.map (·.1)).sum : ℕ)

theorem lossLoggerAfter_total_weight (losses : List ℚ) :
    lossLoggerAfter losses = ⟨losses.sum, losses.length⟩ := by
  have key : ∀ (l : List ℚ) (s : MeanState),
      l.foldl MeanState.updateScalar s = ⟨s.total + l.sum, s.weight + l.length⟩ := by
    intro l
    induction l with
    | nil => intro s; simp
    | cons x xs ih =>
        intro s
        simp only [List.foldl_cons, ih, MeanState.updateScalar, List.sum_cons,
          List.length_cons, MeanState.mk.injEq]
        constructor <;> push_cast <;> ring
  simpa [lossLoggerAfter, MeanState.init] using key losses MeanState.init

/-- Claim C3, as stated: the loss accumulator's `compute()` is the
batch-size-weighted average.  Refuted at a concrete input: two batches,
one of size 2 with loss 0 and one of size 1 with loss 3.  The code's
accumulator (fed only the scalar losses, default weight 1) computes
`(0 + 3) / 2 = 3/2`, while the size-weighted average is
`(2·0 + 1·3) / 3 = 1`. -/
theorem lossLogger_not_sizeWeighted :
    (lossLoggerAfter [0, 3]).compute = 3 / 2 ∧
    sizeWeightedAverage [(2, 0), (1, 3)] = 1 ∧
    (lossLoggerAfter [0, 3]).compute ≠ sizeWeightedAverage [(2, 0), (1, 3)] := by
  have h1 : (lossLoggerAfter [0, 3]).compute = 3 / 2 := by
    rw [lossLoggerAfter_total_weight]
    norm_num [MeanState.compute]
  have h2 : sizeWeightedAverage [(2, 0), (1, 3)] = 1 := by
    norm_num [sizeWeightedAverage]
  refine ⟨h1, h2, ?_⟩
  rw [h1, h2]
  norm_num

/-- Claim C3, amended: `train_one_batch`/`val_one_batch` call
`self.loss_logger(loss.detach())` with no weight argument, so every
batch enters with weight 1 regardless of its size, and `compute()` on
the loss accumulator returns the unweighted arithmetic mean of the
per-batch scalar losses seen since the last `reset()` — `(Σ vᵢ) / k`
after `k` updates.  A partial final batch therefore counts the same as
a full one. -/
theorem lossLogger_compute_unweighted_mean (losses : List ℚ) (_h : losses ≠ []) :
    (lossLoggerAfter losses).compute = losses.sum / losses.length := by
  rw [lossLoggerAfter_total_weight]
  rfl

theorem lossLogger_compute_unweighted_mean_witness :
    [(2 : ℚ), 4] ≠ [] ∧ (lossLoggerAfter [2, 4]).compute = ([(2 : ℚ), 4]).sum / 2 := by
  refine ⟨by simp, ?_⟩
  have h := lossLogger_compute_unweighted_mean [2, 4] (by simp)
  simpa using h

/-! ## ThresholdAccuracy (src/metrics/threshold_accuracy.py)

`ThresholdAccuracy` subclasses `tm.MeanMetric`.  Its `update(preds, target)`
clamps both tensors elementwise with `torch.clamp_min(·, 1e-6)`, forms
`maximum = torch.maximum(preds / target, target / preds)`, builds the 0/1
mask `torch.where(maximum < self.threshold, 1, 0)` and feeds the mask to
`MeanMetric.update` (default weight), so `compute()` is
(number of elements with ratio < threshold) / (total elements). -/

/-- `torch.clamp_min(x, floor)`. -/
def clampMin (x floor : ℚ) : ℚ := max x floor

/-- The positive floor `1e-6` both metrics clamp with
(threshold_accuracy.py:12-13, log10_average_error.py:11-12). -/
def depthFloor : ℚ := 1 / 1000000

/-- Per-element ratio after clamping:
`max(preds / target, target / preds)` (threshold_accuracy.py:15). -/
def taRatio (p t : ℚ) : ℚ :=
  max (clampMin p depthFloor / clampMin t depthFloor)
      (clampMin t depthFloor / clampMin p depthFloor)

/-- Per-element mask `torch.where(maximum < threshold, 1, 0)`
(threshold_accuracy.py:16). -/
def taMask (threshold p t : ℚ) : ℚ :=
  if taRatio p t < threshold then 1 else 0

/-- `ThresholdAccuracy.update(preds, target)` acting on the underlying
`MeanMetric` state (threshold_accuracy.py:11-17). -/
def thresholdAccuracyUpdate (threshold : ℚ) (s : MeanState)
    (preds target : List ℚ) : MeanState :=
  s.updateTensor (List.zipWith (taMask threshold) preds target)

theorem clampMin_pos (x : ℚ) : 0 < clampMin x depthFloor :=
  lt_of_lt_of_le (by norm_num [depthFloor]) (le_max_right x depthFloor)

theorem taMask_self (threshold x : ℚ) (h : 1 < threshold) :
    taMask threshold x x = 1 := by
  have hx : clampMin x depthFloor ≠ 0 := ne_of_gt (clampMin_pos x)
  simp [taMask, taRatio, div_self hx, h]

theorem taMask_double (x : ℚ) (hx : depthFloor ≤ x) :
    taMask (5 / 4) (2 * x) x = 0 := by
  have hx0 : 0 < x := lt_of_lt_of_le (by norm_num [depthFloor]) hx
  have hcx : clampMin x depthFloor = x := max_eq_left hx
  have hc2x : clampMin (2 * x) depthFloor = 2 * x := by
    apply max_eq_left
    nlinarith
  have hr : taRatio (2 * x) x = 2 := by
    rw [taRatio, hcx, hc2x]
    rw [mul_div_assoc, div_self (ne_of_gt hx0)]
    rw [show x / (2 * x) = 1 / 2 by
      rw [div_eq_div_iff (by positivity) (by norm_num)]; ring]
    norm_num
  rw [taMask, hr]
  norm_num

theorem taMask_sum (threshold : ℚ) (p t : List ℚ) :
    (List.zipWith (taMask threshold) p t).sum =
      ((p.zip t).countP (fun x => decide (taRatio x.1 x.2 < threshold)) : ℕ) := by
  induction p generalizing t with
  | nil => simp
  | cons a p ih =>
      cases t with
      | nil => simp
      | cons b t =>
          simp only [List.zipWith_cons_cons, List.sum_cons, List.zip_cons_cons,
            List.countP_cons, ih, taMask]
          by_cases h : taRatio a b < threshold <;> simp [h] <;> push_cast <;> ring

theorem sum_map_all_one (l : List ℚ) (f : ℚ → ℚ) (h : ∀ x ∈ l, f x = 1) :
    (l.map f).sum = l.length := by
  induction l with
  | nil => simp
  | cons a l ih =>
      simp only [List.map_cons, List.sum_cons, List.length_cons,
        h a (List.mem_cons_self a l), ih (fun x hx => h x (List.mem_cons_of_mem a hx))]
      push_cast
      ring

theorem sum_map_all_zero (l : List ℚ) (f : ℚ → ℚ) (h : ∀ x ∈ l, f x = 0) :
    (l.map f).sum = 0 := by
  induction l with
  | nil => simp
  | cons a l ih =>
      simp [h a (List.mem_cons_self a l), ih (fun x hx => h x (List.mem_cons_of_mem a hx))]

/-- Claim C9: `ThresholdAccuracy` clamps predictions and targets to the
positive floor `1e-6`, forms the per-element ratio
`r = max(pred/target, target/pred)` and accumulates the fraction of
elements with `r` strictly below the threshold; with threshold `1.25`,
predictions equal to strictly positive targets give `compute() = 1`
and predictions equal to `2×` targets (targets at or above the clamp
floor, so the ratio is really `2`) give `compute() = 0`. -/
theorem thresholdAccuracy_spec (threshold : ℚ) (p t : List ℚ)
    (hlen : p.length = t.length) (hne : t ≠ []) :
    (thresholdAccuracyUpdate threshold MeanState.init p t).compute =
      ((p.zip t).countP (fun x => decide (taRatio x.1 x.2 < threshold)) : ℕ) / (t.length : ℚ)
    ∧ ((∀ x ∈ t, 0 < x) →
        (thresholdAccuracyUpdate (5 / 4) MeanState.init t t).compute = 1)
    ∧ ((∀ x ∈ t, depthFloor ≤ x) →
        (thresholdAccuracyUpdate (5 / 4) MeanState.init
          (t.map (fun x => 2 * x)) t).compute = 0) := by
  have hlen' : (t.length : ℚ) ≠ 0 := by
    simpa using fun hcon => hne (List.length_eq_zero.mp hcon)
  refine ⟨?_, ?_, ?_⟩
  · simp only [thresholdAccuracyUpdate, MeanState.updateTensor, MeanState.init,
      MeanState.compute, zero_add, taMask_sum, List.length_zipWith, hlen, min_self]
  · intro _
    have hmask : List.zipWith (taMask (5 / 4)) t t = t.map (fun x => taMask (5 / 4) x x) :=
      List.zipWith_same ..
    simp only [thresholdAccuracyUpdate, MeanState.updateTensor, MeanState.init,
      MeanState.compute, zero_add, hmask]
    rw [sum_map_all_one t _ (fun x _ => taMask_self (5 / 4) x (by norm_num))]
    simp [div_self hlen']
  · intro hfloor
    have hmask : List.zipWith (taMask (5 / 4)) (t.map (fun x => 2 * x)) t =
        t.map (fun x => taMask (5 / 4) (2 * x) x) := by
      rw [List.zipWith_map_left]
      exact List.zipWith_same ..
    simp only [thresholdAccuracyUpdate, MeanState.updateTensor, MeanState.init,
      MeanState.compute, zero_add, hmask]
    rw [sum_map_all_zero t _ (fun x hx => taMask_double x (hfloor x hx))]
    simp

theorem thresholdAccuracy_spec_witness :
    ([(2 : ℚ), 1]).length = ([(1 : ℚ), 3]).length ∧ [(1 : ℚ), 3] ≠ [] ∧
    (thresholdAccuracyUpdate (5 / 4) MeanState.init [(2 : ℚ), 1] [(1 : ℚ), 3]).compute =
      ((([(2 : ℚ), 1]).zip [(1 : ℚ), 3]).countP
        (fun x => decide (taRatio x.1 x.2 < (5 : ℚ) / 4)) : ℕ) / (2 : ℚ) ∧
    (∀ x ∈ [(1 : ℚ), 3], 0 < x) ∧
    (thresholdAccuracyUpdate (5 / 4) MeanState.init [(1 : ℚ), 3] [(1 : ℚ), 3]).compute = 1 := by
  have h := thresholdAccuracy_spec (5 / 4) [(2 : ℚ), 1] [(1 : ℚ), 3] (by simp) (by simp)
  have h2 := thresholdAccuracy_spec (5 / 4) [(1 : ℚ), 3] [(1 : ℚ), 3] (by simp) (by simp)
  refine ⟨by simp, by simp, ?_, ?_, ?_⟩
  · simpa using h.1
  · intro x hx
    simp only [List.mem_cons, List.not_mem_nil, or_false] at hx
    rcases hx with rfl | rfl <;> norm_num
  · exact h2.2.1 (by intro x hx; simp only [List.mem_cons, List.not_mem_nil, or_false] at hx
                     rcases hx with rfl | rfl <;> norm_num)

/-! ## Log10AverageError (src/metrics/log10_average_error.py)

`Log10AverageError` subclasses `tm.MeanAbsoluteError`.  Its
`update(preds, target)` clamps both tensors elementwise with
`torch.clamp_min(·, 1e-6)` and feeds `torch.log10` of the clamped tensors
to `MeanAbsoluteError.update`, which adds `|preds' - target'|.sum()` to a
running absolute-error sum and `numel` to a running count;
`compute()` is sum / count.  Logarithms force the idealisation into `ℝ`. -/

/-- `torch.clamp_min(x, floor)` over `ℝ`. -/
noncomputable def clampMinR (x floor : ℝ) : ℝ := max x floor

/-- The clamp floor `1e-6` of log10_average_error.py:11-12, over `ℝ`. -/
noncomputable def depthFloorR : ℝ := 1 / 1000000

/-- `torch.log10`, idealised as the real base-10 logarithm. -/
noncomputable def log10 (x : ℝ) : ℝ := Real.logb 10 x

/-- State of a `torchmetrics.MeanAbsoluteError`:
running `sum_abs_error` and running element count. -/
structure MAEState where
  sumAbsError : ℝ
  total : ℕ

/-- Fresh / `reset()` state of `MeanAbsoluteError`. -/
noncomputable def MAEState.init : MAEState := ⟨0, 0⟩

/-- `MeanAbsoluteError.update(preds, target)`. -/
noncomputable def MAEState.update (s : MAEState) (preds target : List ℝ) : MAEState :=
  ⟨s.sumAbsError + (List.zipWith (fun a b => |a - b|) preds target).sum,
   s.total + target.length⟩

/-- `MeanAbsoluteError.compute()`. -/
noncomputable def MAEState.compute (s : MAEState) : ℝ := s.sumAbsError / s.total

/-- `Log10AverageError.update(preds, target)`
(log10_average_error.py:10-13): clamp, take base-10 logs, defer to
`MeanAbsoluteError.update`. -/
noncomputable def log10AverageErrorUpdate (s : MAEState) (preds target : List ℝ) : MAEState :=
  s.update (preds.map (fun x => log10 (clampMinR x depthFloorR)))
           (target.map (fun x => log10 (clampMinR x depthFloorR)))

theorem sum_map_all_one_real (l : List ℝ) (f : ℝ → ℝ) (h : ∀ x ∈ l, f x = 1) :
    (l.map f).sum = l.length := by
  induction l with
  | nil => simp
  | cons a l ih =>
      simp only [List.map_cons, List.sum_cons, List.length_cons,
        h a (List.mem_cons_self a l), ih (fun x hx => h x (List.mem_cons_of_mem a hx))]
      push_cast
      ring

theorem sum_map_all_zero_real (l : List ℝ) (f : ℝ → ℝ) (h : ∀ x ∈ l, f x = 0) :
    (l.map f).sum = 0 := by
  induction l with
  | nil => simp
  | cons a l ih =>
      simp [h a (List.mem_cons_self a l), ih (fun x hx => h x (List.mem_cons_of_mem a hx))]

theorem log10_clamp_tenfold (x : ℝ) (hx : depthFloorR ≤ x) :
    |log10 (clampMinR (10 * x) depthFloorR) - log10 (clampMinR x depthFloorR)| = 1 := by
  have hfloor : (0 : ℝ) < depthFloorR := by norm_num [depthFloorR]
  have hx0 : 0 < x := lt_of_lt_of_le hfloor hx
  have hcx : clampMinR x depthFloorR = x := max_eq_left hx
  have hc10x : clampMinR (10 * x) depthFloorR = 10 * x := by
    apply max_eq_left
    nlinarith
  rw [hcx, hc10x, log10, log10, Real.logb_mul (by norm_num) (ne_of_gt hx0),
    Real.logb_self_eq_one (by norm_num)]
  simp

/-- Claim C10: `Log10AverageError` clamps predictions and targets to the
floor `1e-6` before taking base-10 logarithms and accumulates the mean
absolute error of the logs; identical strictly positive tensors give
error exactly `0`, and predictions equal to `10×` targets (targets at or
above the clamp floor) give per-element log-error exactly `1` and hence
mean error exactly `1`. -/
theorem log10AverageError_spec (t : List ℝ) (hne : t ≠ []) :
    ((∀ x ∈ t, 0 < x) →
      (log10AverageErrorUpdate MAEState.init t t).compute = 0)
    ∧ ((∀ x ∈ t, depthFloorR ≤ x) →
      (∀ x ∈ t,
        |log10 (clampMinR (10 * x) depthFloorR) - log10 (clampMinR x depthFloorR)| = 1)
      ∧ (log10AverageErrorUpdate MAEState.init (t.map (fun x => 10 * x)) t).compute = 1) := by
  have hlen : (t.length : ℝ) ≠ 0 := by
    simpa using fun hcon => hne (List.length_eq_zero.mp hcon)
  constructor
  · intro _
    have hz : (List.zipWith (fun a b => |a - b|)
        (t.map (fun x => log10 (clampMinR x depthFloorR)))
        (t.map (fun x => log10 (clampMinR x depthFloorR)))).sum = 0 := by
      rw [List.zipWith_map_left, List.zipWith_map_right, List.zipWith_same]
      exact sum_map_all_zero_real t _ (fun x _ => by simp)
    simp only [log10AverageErrorUpdate, MAEState.update, MAEState.init, MAEState.compute,
      hz, zero_add]
    exact zero_div _
  · intro hfloor
    refine ⟨fun x hx => log10_clamp_tenfold x (hfloor x hx), ?_⟩
    have hz : List.zipWith (fun a b => |a - b|)
        ((t.map (fun x => 10 * x)).map (fun x => log10 (clampMinR x depthFloorR)))
        (t.map (fun x => log10 (clampMinR x depthFloorR))) =
        t.map (fun x =>
          |log10 (clampMinR (10 * x) depthFloorR) - log10 (clampMinR x depthFloorR)|) := by
      rw [List.map_map, List.zipWith_map_left, List.zipWith_map_right, List.zipWith_same]
      rfl
    have hsum := sum_map_all_one_real t
      (fun x => |log10 (clampMinR (10 * x) depthFloorR) - log10 (clampMinR x depthFloorR)|)
      (fun x hx => log10_clamp_tenfold x (hfloor x hx))
    simp only [log10AverageErrorUpdate, MAEState.update, MAEState.init, MAEState.compute,
      hz, hsum, zero_add, List.length_map]
    exact div_self hlen

theorem log10AverageError_spec_witness :
    ([(1 : ℝ)] ≠ []) ∧ (∀ x ∈ [(1 : ℝ)], 0 < x) ∧ (∀ x ∈ [(1 : ℝ)], depthFloorR ≤ x) ∧
    (log10AverageErrorUpdate MAEState.init [(1 : ℝ)] [(1 : ℝ)]).compute = 0 ∧
    (log10AverageErrorUpdate MAEState.init [(10 : ℝ)] [(1 : ℝ)]).compute = 1 := by
  have hpos : ∀ x ∈ [(1 : ℝ)], 0 < x := by simp
  have hfl : ∀ x ∈ [(1 : ℝ)], depthFloorR ≤ x := by norm_num [depthFloorR]
  have h := log10AverageError_spec [(1 : ℝ)] (by simp)
  refine ⟨by simp, hpos, hfl, h.1 hpos, ?_⟩
  have h2 := (h.2 hfl).2
  simpa using h2

/-! ## EMA weight tracking (src/train.py:169-171)

`train.py` builds
`ema_model = optim.swa_utils.AveragedModel(model, avg_fn=ema_avg)` with
`ema_avg` the lambda of lines 169-170.  Parameters are idealised as a
flat list of scalars. -/

/-- The `ema_avg` lambda of train.py:169-170:
`model_parameter * (1 - ema_weight) + averaged_model_parameter * ema_weight`. -/
def ema_avg (ema_weight averaged_model_parameter model_parameter : ℚ) : ℚ :=
  model_parameter * (1 - ema_weight) + averaged_model_parameter * ema_weight

/-- Shadow-parameter state of `torch.optim.swa_utils.AveragedModel`:
the shadow parameter tensors plus the `n_averaged` update counter. -/
structure AveragedModel where
  params : List ℚ
  nAveraged : ℕ
deriving DecidableEq, Repr

/-- Modelled from the spec: the EMA tracker's per-step update.  The
`EMATrainer` that calls it after each optimizer step is not under `src/`;
`AveragedModel.update_parameters` (the collaborator constructed at
train.py:171) copies the live parameters into the shadow on the very
first update (`n_averaged == 0`) and otherwise applies the registered
`avg_fn` — here the `ema_avg` of train.py:169-170 — elementwise to
(shadow, live) parameter pairs, then increments `n_averaged`. -/
def updateParameters (w : ℚ) (am : AveragedModel) (live : List ℚ) : AveragedModel :=
  if am.nAveraged = 0 then ⟨live, 1⟩
  else ⟨List.zipWith (fun avgp p => ema_avg w avgp p) am.params live, am.nAveraged + 1⟩

/-- Claim C2: with EMA weight `w ∈ [0,1)`, the very first update makes the
shadow an exact copy of the live parameters `θ` (not a weighted
combination), and every later update sends each shadow tensor to
`w·θ_ema_prev + (1-w)·θ_new` elementwise. -/
theorem ema_update_spec (w : ℚ) (am : AveragedModel) (live : List ℚ)
    (_hw0 : 0 ≤ w) (_hw1 : w < 1) :
    (am.nAveraged = 0 → (updateParameters w am live).params = live)
    ∧ (am.nAveraged ≠ 0 → (updateParameters w am live).params =
        List.zipWith (fun prev new => w * prev + (1 - w) * new) am.params live) := by
  constructor
  · intro h
    simp [updateParameters, h]
  · intro h
    simp only [updateParameters, if_neg h]
    have hfn : (fun avgp p => ema_avg w avgp p) =
        fun prev new => w * prev + (1 - w) * new := by
      funext a b
      rw [ema_avg]
      ring
    rw [hfn]

theorem ema_update_spec_witness :
    (0 : ℚ) ≤ 1 / 2 ∧ (1 / 2 : ℚ) < 1 ∧
    (updateParameters (1 / 2) ⟨[2], 0⟩ [4]).params = [4] ∧
    (updateParameters (1 / 2) ⟨[2], 1⟩ [4]).params =
      List.zipWith (fun prev new => (1 / 2 : ℚ) * prev + (1 - 1 / 2) * new) [2] [4] := by
  refine ⟨by norm_num, by norm_num, ?_, ?_⟩
  · exact (ema_update_spec (1 / 2) ⟨[2], 0⟩ [4] (by norm_num) (by norm_num)).1 rfl
  · exact (ema_update_spec (1 / 2) ⟨[2], 1⟩ [4] (by norm_num) (by norm_num)).2 (by simp)

/-! ## Checkpoint save/load (base_trainer.py:159-176)

`save_checkpoint` bundles `model.state_dict()`, `optimizer.state_dict()`
and `self.history` into one dict and serialises it; `load_checkpoint`
deserialises and restores each of the three fields, guarding each
restore on the corresponding attribute being non-`None`.  State dicts
are idealised as name→scalar association lists, the history as a list of
rows. -/

/-- One row of the per-epoch history table: epoch index, learning rate
and the merged `train/` / `val/` result entries (base_trainer.py:108). -/
structure HistoryRow where
  epoch : ℕ
  lr : ℚ
  entries : List (String × ℚ)
deriving DecidableEq, Repr

/-- The Trainer state relevant to checkpointing: the model's and the
optimizer's state dicts (`None` when the attribute is `None`) and the
history table (always a DataFrame, never `None`). -/
structure Trainer where
  modelSD : Option (List (String × ℚ))
  optimSD : Option (List (String × ℚ))
  history : List HistoryRow
deriving DecidableEq, Repr

/-- The three-field checkpoint artifact of base_trainer.py:161-165. -/
structure Checkpoint where
  model : List (String × ℚ)
  optimizer : List (String × ℚ)
  history : List HistoryRow
deriving DecidableEq, Repr

/-- `BaseTrainer.save_checkpoint` (base_trainer.py:159-166): snapshot the
three fields.  `self.model.state_dict()` / `self.optimizer.state_dict()`
raise when the attribute is `None`, hence the `Option` result. -/
def save_checkpoint (t : Trainer) : Option Checkpoint :=
  match t.modelSD, t.optimSD with
  | some m, some o => some ⟨m, o, t.history⟩
  | _, _ => none

/-- `BaseTrainer.load_checkpoint` (base_trainer.py:168-176): restore the
model parameters if a model is present, the optimizer state if an
optimizer is present, and the history (the `self.history is not None`
guard is always true for a constructed trainer). -/
def load_checkpoint (t : Trainer) (c : Checkpoint) : Trainer :=
  { modelSD := t.modelSD.map (fun _ => c.model),
    optimSD := t.optimSD.map (fun _ => c.optimizer),
    history := c.history }

/-- Claim C1: saving a checkpoint and loading it into a fresh trainer that
has a model and an optimizer of the same structure reproduces the
original's model parameter values, optimizer state and history rows. -/
theorem checkpoint_roundtrip (t fresh : Trainer) (m o : List (String × ℚ))
    (hm : t.modelSD = some m) (ho : t.optimSD = some o)
    (hfm : fresh.modelSD.isSome) (hfo : fresh.optimSD.isSome) :
    ∃ c, save_checkpoint t = some c ∧
      (load_checkpoint fresh c).modelSD = t.modelSD ∧
      (load_checkpoint fresh c).optimSD = t.optimSD ∧
      (load_checkpoint fresh c).history = t.history := by
  refine ⟨⟨m, o, t.history⟩, ?_, ?_, ?_, ?_⟩
  · rw [save_checkpoint, hm, ho]
  · rcases Option.isSome_iff_exists.mp hfm with ⟨fm, hfm'⟩
    rw [load_checkpoint, hfm', hm]
    rfl
  · rcases Option.isSome_iff_exists.mp hfo with ⟨fo, hfo'⟩
    rw [load_checkpoint, hfo', ho]
    rfl
  · rfl

theorem checkpoint_roundtrip_witness :
    (⟨some [(String.mk ['w'], 3)], some [(String.mk ['s'], 7)],
        [⟨1, 1 / 10, []⟩]⟩ : Trainer).modelSD = some [(String.mk ['w'], 3)] ∧
    ∃ c, save_checkpoint
        ⟨some [(String.mk ['w'], 3)], some [(String.mk ['s'], 7)], [⟨1, 1 / 10, []⟩]⟩ =
          some c ∧
      (load_checkpoint ⟨some [], some [], []⟩ c).modelSD = some [(String.mk ['w'], 3)] ∧
      (load_checkpoint ⟨some [], some [], []⟩ c).optimSD = some [(String.mk ['s'], 7)] ∧
      (load_checkpoint ⟨some [], some [], []⟩ c).history = [⟨1, 1 / 10, []⟩] := by
  refine ⟨rfl, ?_⟩
  exact checkpoint_roundtrip
    ⟨some [(String.mk ['w'], 3)], some [(String.mk ['s'], 7)], [⟨1, 1 / 10, []⟩]⟩
    ⟨some [], some [], []⟩ _ _ rfl rfl rfl rfl

/-! ## History growth and the periodic-checkpoint schedule
(base_trainer.py:106-127, train.py:201-210)

`train` iterates `for epoch in range(1, num_epochs + 1)` and each
`train_one_epoch` ends by appending one result row (with the current
epoch index) to `self.history`; after each epoch `train` also saves a
labeled checkpoint when `save_checkpoint_per_num_epochs > 0` and the
epoch index is a multiple of it.  The per-epoch learning rate and metric
entries are opaque here, supplied as functions of the epoch index. -/

theorem foldl_append_singleton {α β : Type} (f : α → β) (l : List α) (init : List β) :
    l.foldl (fun acc e => acc ++ [f e]) init = init ++ l.map f := by
  induction l generalizing init with
  | nil => simp
  | cons a l ih => simp [ih]

theorem foldl_append_bind {α β : Type} (g : α → List β) (l : List α) (init : List β) :
    l.foldl (fun acc e => acc ++ g e) init = init ++ l.bind g := by
  induction l generalizing init with
  | nil => simp
  | cons a l ih => simp [ih]

/-- The history append of base_trainer.py:106-109:
`self.history = self.history.append(result, ignore_index=True)` with
`result = {"Epoch": epoch, "lr": lr, **train_result, **val_result}`. -/
def appendHistoryRow (hist : List HistoryRow) (e : ℕ) (lr : ℚ)
    (entries : List (String × ℚ)) : List HistoryRow :=
  hist ++ [⟨e, lr, entries⟩]

/-- The history table after `BaseTrainer.train` has completed its loop
`for epoch in range(1, num_epochs + 1)` (base_trainer.py:116) starting
from the fresh empty table of `__init__` (base_trainer.py:28). -/
def trainHistory (numEpochs : ℕ) (lrAt : ℕ → ℚ)
    (entriesAt : ℕ → List (String × ℚ)) : List HistoryRow :=
  (List.range' 1 numEpochs).foldl
    (fun h e => appendHistoryRow h e (lrAt e) (entriesAt e)) []

/-- Claim C4: after `N` completed epochs the history holds exactly `N`
rows, one appended per epoch, with epoch indices `1..N` in order. -/
theorem history_rows_spec (N : ℕ) (lrAt : ℕ → ℚ)
    (entriesAt : ℕ → List (String × ℚ)) :
    (trainHistory N lrAt entriesAt).length = N ∧
    (trainHistory N lrAt entriesAt).map HistoryRow.epoch = List.range' 1 N := by
  have h : trainHistory N lrAt entriesAt =
      (List.range' 1 N).map (fun e => (⟨e, lrAt e, entriesAt e⟩ : HistoryRow)) := by
    have := foldl_append_singleton
      (fun e => (⟨e, lrAt e, entriesAt e⟩ : HistoryRow)) (List.range' 1 N) []
    simpa [trainHistory, appendHistoryRow] using this
  rw [h]
  constructor
  · simp [List.length_range']
  · rw [List.map_map]
    have : (HistoryRow.epoch ∘ fun e => (⟨e, lrAt e, entriesAt e⟩ : HistoryRow)) = id := by
      funext e
      rfl
    simp [this]

/-- Checkpoint-file writes observable from a run of the training script. -/
inductive CkptEvent where
  | periodic (epoch : ℕ)
  | final
deriving DecidableEq, Repr

/-- The periodic checkpoint write of one epoch of `BaseTrainer.train`
(base_trainer.py:126-127): fires iff
`save_checkpoint_per_num_epochs > 0 and epoch % save_checkpoint_per_num_epochs == 0`. -/
def epochCkpt (k e : ℕ) : List CkptEvent :=
  if 0 < k ∧ e % k = 0 then [CkptEvent.periodic e] else []

/-- All periodic checkpoint writes of `BaseTrainer.train` over epochs
`1..numEpochs` (base_trainer.py:116-127). -/
def trainCkpts (numEpochs k : ℕ) : List CkptEvent :=
  (List.range' 1 numEpochs).foldl (fun acc e => acc ++ epochCkpt k e) []

/-- The checkpoint writes of the `train.py` script: `trainer.train(...)`
followed by the final explicit `trainer.save_checkpoint(...)`
(train.py:201-210). -/
def trainScriptCkpts (numEpochs k : ℕ) : List CkptEvent :=
  trainCkpts numEpochs k ++ [CkptEvent.final]

/-- Claim C7: within a run over epochs `1..N`, a periodic labeled
checkpoint is persisted after epoch `e` iff `k > 0` and `e` is a
multiple of `k`; concretely, `num_epochs = 3` with interval `2` writes
only the epoch-2 periodic checkpoint plus the final explicit save. -/
theorem periodic_ckpt_spec (N k e : ℕ) (he1 : 1 ≤ e) (heN : e ≤ N) :
    (CkptEvent.periodic e ∈ trainScriptCkpts N k ↔ (0 < k ∧ e % k = 0))
    ∧ trainScriptCkpts 3 2 = [CkptEvent.periodic 2, CkptEvent.final] := by
  constructor
  · rw [trainScriptCkpts, trainCkpts, foldl_append_bind]
    simp only [List.nil_append, List.mem_append, List.mem_bind, List.mem_singleton]
    constructor
    · rintro (⟨a, _, hmem⟩ | hfin)
      · by_cases hc : 0 < k ∧ a % k = 0
        · rw [epochCkpt, if_pos hc] at hmem
          simp only [List.mem_singleton, CkptEvent.periodic.injEq] at hmem
          subst hmem
          exact hc
        · rw [epochCkpt, if_neg hc] at hmem
          simp at hmem
      · simp at hfin
    · intro hc
      refine Or.inl ⟨e, ?_, ?_⟩
      · rw [List.mem_range'_1]
        omega
      · rw [epochCkpt, if_pos hc]
        simp
  · decide

theorem periodic_ckpt_spec_witness :
    (1 ≤ 2 ∧ 2 ≤ 3) ∧
    (CkptEvent.periodic 2 ∈ trainScriptCkpts 3 2 ∧
      trainScriptCkpts 3 2 = [CkptEvent.periodic 2, CkptEvent.final]) := by
  have h := periodic_ckpt_spec 3 2 2 (by decide) (by decide)
  exact ⟨⟨by decide, by decide⟩, h.1.mpr (by decide), h.2⟩

/-! ## Progress reporting (base_trainer.py:90-93 and 99-102)

Each epoch pass enumerates its loader from 1 and tests
`if i % verbose == 0` before printing.  Python's `%` raises
`ZeroDivisionError` when `verbose == 0`; the `Option` models that: the
test yields `none` instead of a boolean. -/

/-- The per-batch report test `i % verbose == 0` of base_trainer.py:92
and base_trainer.py:101, `none` when Python raises `ZeroDivisionError`
on `verbose == 0`. -/
def progressAt (verbose i : ℕ) : Option Bool :=
  if verbose = 0 then none else some (decide (i % verbose = 0))

/-- The 1-based batch indices at which one epoch pass over `n` batches
prints a progress report; `none` when the pass aborts with
`ZeroDivisionError` before completing. -/
def passReports (verbose n : ℕ) : Option (List ℕ) :=
  (List.range' 1 n).foldl
    (fun acc i => acc.bind (fun rs => (progressAt verbose i).map
      (fun b => if b then rs ++ [i] else rs)))
    (some [])

/-- Claim C5 evaluated on the code: with `verbose = 3` over 6 batches the
pass completes and reports exactly at the positive multiples 3 and 6,
but with `verbose = 0` the very first batch evaluates `1 % 0` and the
epoch pass aborts with `ZeroDivisionError` (`none`) instead of
completing silently as the claim states. -/
theorem progress_report_spec :
    passReports 3 6 = some [3, 6] ∧ passReports 0 1 = none := by
  constructor
  · decide
  · decide

/-! ## Atomicity of save_checkpoint (base_trainer.py:159-166)

`save_checkpoint` calls `torch.save(checkpoints, filename)` which opens
`filename` itself for writing and streams the serialised bytes into it:
there is no temporary file and no rename.  The file system is modelled
as a map from paths to byte lists and `torch.save` as a truncating open
followed by a sequence of byte appends; a crash is a prefix of that
operation sequence. -/

/-- A flat file system: path → file contents, `none` when absent. -/
abbrev FileSys := String → Option (List ℕ)

/-- Primitive file-system operations. -/
inductive FsOp where
  | truncate (path : String)
  | append (path : String) (b : ℕ)
  | rename (src dst : String)
deriving DecidableEq, Repr

/-- Effect of one operation. -/
def applyOp (fs : FileSys) : FsOp → FileSys
  | FsOp.truncate p => fun q => if q = p then some [] else fs q
  | FsOp.append p b => fun q => if q = p then some ((fs p).getD [] ++ [b]) else fs q
  | FsOp.rename src dst =>
      fun q => if q = dst then fs src else if q = src then none else fs q

def runOps (fs : FileSys) (ops : List FsOp) : FileSys := ops.foldl applyOp fs

/-- `torch.save(obj, filename)`: truncating open of `filename` followed by
writing the serialised bytes, abstracted as the byte list `data`. -/
def torchSaveOps (filename : String) (data : List ℕ) : List FsOp :=
  FsOp.truncate filename :: data.map (FsOp.append filename)

/-- The file-system trace of `BaseTrainer.save_checkpoint(filename)`
(base_trainer.py:166): a single direct `torch.save` to `filename`. -/
def save_checkpoint_ops (filename : String) (ckptBytes : List ℕ) : List FsOp :=
  torchSaveOps filename ckptBytes

/-- A crash after the first `k` operations of a write. -/
def crashAfter (fs : FileSys) (ops : List FsOp) (k : ℕ) : FileSys :=
  runOps fs (ops.take k)

/-- A file system whose target path holds a previously valid checkpoint. -/
def fsWithOldCkpt : FileSys :=
  fun q => if q = "ckpt.pkl" then some [1, 2, 3] else none

/-- Claim C6, as stated, is false: `save_checkpoint` crashing right after
the truncating open leaves an empty file at the target path — the
previously valid checkpoint `[1, 2, 3]` is gone and the new payload
`[9, 9]` is not there either, i.e. a previously valid checkpoint file
was replaced by a partially written one. -/
theorem save_checkpoint_not_atomic :
    crashAfter fsWithOldCkpt (save_checkpoint_ops "ckpt.pkl" [9, 9]) 1 "ckpt.pkl" =
      some [] ∧
    fsWithOldCkpt "ckpt.pkl" = some [1, 2, 3] ∧
    some ([] : List ℕ) ≠ some [1, 2, 3] ∧ ([] : List ℕ) ≠ [9, 9] := by
  refine ⟨by decide, by decide, by decide, by decide⟩

theorem runOps_appends (filename : String) (bytes : List ℕ) :
    ∀ (fs : FileSys) (acc : List ℕ), fs filename = some acc →
      runOps fs (bytes.map (FsOp.append filename)) filename = some (acc ++ bytes) := by
  induction bytes with
  | nil =>
      intro fs acc h
      simpa [runOps] using h
  | cons b bs ih =>
      intro fs acc h
      have hstep : applyOp fs (FsOp.append filename b) filename = some (acc ++ [b]) := by
        simp [applyOp, h]
      have := ih (applyOp fs (FsOp.append filename b)) (acc ++ [b]) hstep
      simpa [runOps, List.append_assoc] using this

theorem runOps_appends_other (filename q : String) (hq : q ≠ filename)
    (bytes : List ℕ) : ∀ fs : FileSys,
      runOps fs (bytes.map (FsOp.append filename)) q = fs q := by
  induction bytes with
  | nil => intro fs; simp [runOps]
  | cons b bs ih =>
      intro fs
      have := ih (applyOp fs (FsOp.append filename b))
      simpa [runOps, applyOp, if_neg hq] using this

/-- Claim C6, amended: `save_checkpoint` is not atomic — it performs one
direct truncate-and-write of the serialised checkpoint to the target
path, with no temporary file and no rename anywhere in its operation
trace; a complete run leaves exactly the serialised bytes at the target
path and touches no other path, while an interrupted run can leave a
partially written file in place of a previously valid checkpoint (see
the crash counterexample). -/
theorem save_checkpoint_direct_write (fs : FileSys) (filename : String)
    (data : List ℕ) :
    runOps fs (save_checkpoint_ops filename data) filename = some data
    ∧ (∀ q, q ≠ filename → runOps fs (save_checkpoint_ops filename data) q = fs q)
    ∧ (∀ op ∈ save_checkpoint_ops filename data, ∀ src dst,
        op ≠ FsOp.rename src dst) := by
  refine ⟨?_, ?_, ?_⟩
  · have h0 : applyOp fs (FsOp.truncate filename) filename = some [] := by
      simp [applyOp]
    have := runOps_appends filename data (applyOp fs (FsOp.truncate filename)) [] h0
    simpa [runOps, save_checkpoint_ops, torchSaveOps] using this
  · intro q hq
    have := runOps_appends_other filename q hq data (applyOp fs (FsOp.truncate filename))
    simpa [runOps, save_checkpoint_ops, torchSaveOps, applyOp, if_neg hq] using this
  · intro op hop src dst
    rw [save_checkpoint_ops, torchSaveOps] at hop
    rcases List.mem_cons.mp hop with rfl | hop'
    · simp
    · rcases List.mem_map.mp hop' with ⟨b, _, rfl⟩
      simp

theorem save_checkpoint_direct_write_witness :
    runOps fsWithOldCkpt (save_checkpoint_ops "ckpt.pkl" [9, 9]) "ckpt.pkl" =
      some [9, 9]
    ∧ runOps fsWithOldCkpt (save_checkpoint_ops "ckpt.pkl" [9, 9]) "other.pkl" =
      fsWithOldCkpt "other.pkl" := by
  refine ⟨(save_checkpoint_direct_write fsWithOldCkpt "ckpt.pkl" [9, 9]).1,
    (save_checkpoint_direct_write fsWithOldCkpt "ckpt.pkl" [9, 9]).2.1 "other.pkl"
      (by decide)⟩

/-! ## One epoch's accumulator pipeline (base_trainer.py:87-111, 151-154)

`train_one_epoch` folds the training batches through `train_one_batch`
(which mutates the model and the accumulators), snapshots the
accumulators with `get_metrics_dict`, calls `reset_metrics`, folds the
validation batches through `val_one_batch` (accumulators only, no model
update), snapshots again and resets again.  Model parameters are
idealised as one scalar, the collaborators (forward pass, optimizer
step, criterion, metric) as pure functions supplied in `EpochFns`, and
the metric collection as one accumulator. -/

/-- The collaborators one epoch consumes: `predict m x` is the forward
pass of the model with parameters `m` on image `x`; `stepFn m (x, y)` is
the model state after `loss.backward(); optimizer.step()` on that batch;
`criterion p y` the scalar loss; `metricFn p y` the scalar the metric
collection folds for the batch. -/
structure EpochFns where
  predict : ℚ → ℚ → ℚ
  stepFn : ℚ → ℚ × ℚ → ℚ
  criterion : ℚ → ℚ → ℚ
  metricFn : ℚ → ℚ → ℚ

/-- The trainer state threaded through one epoch: model parameters, the
loss accumulator and the metric accumulator. -/
structure EpochState where
  model : ℚ
  lossAcc : MeanState
  metricAcc : MeanState
deriving DecidableEq, Repr

/-- `BaseTrainer.train_one_batch` (base_trainer.py:55-68): forward,
loss, backward + optimizer step, fold loss and metric. -/
def epochTrainBatch (f : EpochFns) (s : EpochState) (b : ℚ × ℚ) : EpochState :=
  ⟨f.stepFn s.model b,
   s.lossAcc.updateScalar (f.criterion (f.predict s.model b.1) b.2),
   s.metricAcc.updateScalar (f.metricFn (f.predict s.model b.1) b.2)⟩

/-- `BaseTrainer.val_one_batch` (base_trainer.py:70-80): identical but
without the optimizer step — the model is unchanged. -/
def epochValBatch (f : EpochFns) (s : EpochState) (b : ℚ × ℚ) : EpochState :=
  ⟨s.model,
   s.lossAcc.updateScalar (f.criterion (f.predict s.model b.1) b.2),
   s.metricAcc.updateScalar (f.metricFn (f.predict s.model b.1) b.2)⟩

/-- `BaseTrainer.get_metrics_dict` (base_trainer.py:136-149): read the
accumulators, no reset. -/
def get_metrics_dict (s : EpochState) : ℚ × ℚ :=
  (s.lossAcc.compute, s.metricAcc.compute)

/-- `BaseTrainer.reset_metrics` (base_trainer.py:151-154): reset the loss
accumulator, the metric accumulators and the timer together. -/
def reset_metrics (s : EpochState) : EpochState :=
  ⟨s.model, MeanState.init, MeanState.init⟩

/-- `BaseTrainer.train_one_epoch` (base_trainer.py:87-111): training
pass, snapshot, reset, validation pass, snapshot, reset; returns the
`train/` snapshot, the `val/` snapshot, and the final state. -/
def train_one_epoch (f : EpochFns) (s : EpochState)
    (trainBatches valBatches : List (ℚ × ℚ)) :
    (ℚ × ℚ) × (ℚ × ℚ) × EpochState :=
  let s1 := trainBatches.foldl (epochTrainBatch f) s
  let trainRes := get_metrics_dict s1
  let s2 := reset_metrics s1
  let s3 := valBatches.foldl (epochValBatch f) s2
  let valRes := get_metrics_dict s3
  (trainRes, valRes, reset_metrics s3)

/-- The `val/` metric values reported by one epoch. -/
def valResult (f : EpochFns) (s : EpochState)
    (trainBatches valBatches : List (ℚ × ℚ)) : ℚ × ℚ :=
  (train_one_epoch f s trainBatches valBatches).2.1

/-- The model parameters after a training pass (the optimizer steps). -/
def trainedModel (f : EpochFns) (m : ℚ) (trainBatches : List (ℚ × ℚ)) : ℚ :=
  trainBatches.foldl f.stepFn m

/-- A concrete instantiation of the collaborators used to exhibit the
model-mediated dependence of validation metrics on training batches. -/
def cexFns : EpochFns :=
  ⟨fun m x => m + x, fun m _ => m + 1, fun p t => p - t, fun p _ => p⟩

theorem epochTrainBatch_model (f : EpochFns) (s : EpochState)
    (tb : List (ℚ × ℚ)) :
    (tb.foldl (epochTrainBatch f) s).model = trainedModel f s.model tb := by
  induction tb generalizing s with
  | nil => rfl
  | cons b bs ih => simpa [trainedModel, epochTrainBatch] using ih (epochTrainBatch f s b)

/-- The validation pass in isolation: fold the validation batches from
freshly reset accumulators over a fixed model. -/
def valPhase (f : EpochFns) (m : ℚ) (valBatches : List (ℚ × ℚ)) : ℚ × ℚ :=
  get_metrics_dict (valBatches.foldl (epochValBatch f) ⟨m, MeanState.init, MeanState.init⟩)

theorem valResult_eq_valPhase (f : EpochFns) (s : EpochState)
    (tb vb : List (ℚ × ℚ)) :
    valResult f s tb vb = valPhase f (trainedModel f s.model tb) vb := by
  rw [valResult, train_one_epoch, valPhase]
  have h : reset_metrics (tb.foldl (epochTrainBatch f) s) =
      ⟨trainedModel f s.model tb, MeanState.init, MeanState.init⟩ := by
    rw [reset_metrics, epochTrainBatch_model]
  rw [h]

/-- Claim C8, as stated, is false: the reported `val/` metric values can
change when only the training batches change, because the training pass
mutates the model and `val_one_batch` evaluates the mutated model.  With
the concrete collaborators `cexFns`, an empty training pass versus a
one-batch training pass yield different `val/` losses on the same single
validation batch. -/
theorem val_metrics_change_with_train_batches :
    valResult cexFns ⟨0, MeanState.init, MeanState.init⟩ [] [(0, 0)] ≠
    valResult cexFns ⟨0, MeanState.init, MeanState.init⟩ [(5, 0)] [(0, 0)] := by
  have h1 : valResult cexFns ⟨0, MeanState.init, MeanState.init⟩ [] [(0, 0)] = (0, 0) := by
    norm_num [valResult, train_one_epoch, epochValBatch, epochTrainBatch,
      get_metrics_dict, reset_metrics, MeanState.init, MeanState.compute,
      MeanState.updateScalar, cexFns]
  have h2 : valResult cexFns ⟨0, MeanState.init, MeanState.init⟩ [(5, 0)] [(0, 0)] =
      (1, 1) := by
    norm_num [valResult, train_one_epoch, epochValBatch, epochTrainBatch,
      get_metrics_dict, reset_metrics, MeanState.init, MeanState.compute,
      MeanState.updateScalar, cexFns]
  rw [h1, h2]
  intro hcon
  exact absurd (congrArg Prod.fst hcon) (by norm_num)

/-- Claim C8, amended: `reset_metrics` at the train/val phase boundary
clears the loss accumulator and every metric accumulator, so the
reported `val/` metric values depend only on the model state at the
start of the validation pass and on the validation batches — no
accumulated state from the training pass (or from before the epoch)
leaks into them.  In particular two epochs whose training passes leave
the model in the same state, whatever their batches and however the
accumulators were polluted beforehand, report identical `val/` values. -/
theorem val_metrics_no_leakage (f : EpochFns) (s s' : EpochState)
    (tb tb' vb : List (ℚ × ℚ))
    (h : trainedModel f s.model tb = trainedModel f s'.model tb') :
    valResult f s tb vb = valResult f s' tb' vb := by
  rw [valResult_eq_valPhase, valResult_eq_valPhase, h]

theorem val_metrics_no_leakage_witness :
    trainedModel cexFns 0 [(1, 2)] = trainedModel cexFns 1 [] ∧
    valResult cexFns ⟨0, ⟨9, 9⟩, ⟨9, 9⟩⟩ [(1, 2)] [(0, 0)] =
      valResult cexFns ⟨1, MeanState.init, MeanState.init⟩ [] [(0, 0)] := by
  have h : trainedModel cexFns 0 [(1, 2)] = trainedModel cexFns 1 [] := by
    norm_num [trainedModel, cexFns]
  exact ⟨h, val_metrics_no_leakage cexFns ⟨0, ⟨9, 9⟩, ⟨9, 9⟩⟩
    ⟨1, MeanState.init, MeanState.init⟩ [(1, 2)] [] [(0, 0)] h⟩
